import Mathlib

/-!
# Verification of the Globe Explorer client (`globe_explorer.py`)

A shallow embedding of the streaming-response client in `globe_explorer.py`:
the JSON line decoder (`json.loads` restricted to the strict decoder's
grammar), the transport-tag removal performed by
`JSONResponseProcessor.process_line` (`line.replace("data: ", "")`), the
per-line event classifier, the accumulator fold of
`GlobeExplorerClient._process_response`, model-name resolution
(`ModelType.from_string`), request construction (`_build_params` /
`SearchQuery`), and the orchestration in `GlobeExplorerClient.query` with the
transport abstracted as an outcome value.

Python exceptions are modelled with `Except`; Python's distinction between
the `ResponseProcessingError` raised by `process_line` itself and the
`TypeError` that escapes its `except` clauses is kept as a dedicated error
type, because `_process_response` wraps both differently from how
`process_line` produces them.
-/

/-! ## JSON values

The decoded form produced by `json.loads`.  Numbers are kept as a decimal
mantissa/exponent pair (the client never inspects numeric payloads, so the
int/float distinction of Python is not tracked); the non-standard constants
`NaN`, `Infinity` and `-Infinity`, which `json.loads` accepts by default,
are the `nan`/`inf` constructors.  Objects are association lists in
first-insertion order with last-value-wins semantics for duplicate keys,
exactly as a Python `dict` built by the strict JSON decoder. -/
inductive JsonValue where
  | null : JsonValue
  | bool (b : Bool) : JsonValue
  | num (mantissa : Int) (exp10 : Int) : JsonValue
  | nan : JsonValue
  | inf (neg : Bool) : JsonValue
  | str (s : String) : JsonValue
  | arr (elems : List JsonValue) : JsonValue
  | obj (fields : List (String × JsonValue)) : JsonValue

/-- `dict` insertion: a repeated key overwrites its value in place, a new key
is appended, preserving first-insertion order. -/
def dictInsert (k : String) (v : JsonValue) :
    List (String × JsonValue) → List (String × JsonValue)
  | [] => [(k, v)]
  | (k1, v1) :: rest =>
    if k1 = k then (k1, v) :: rest else (k1, v1) :: dictInsert k v rest

/-- `dict` lookup (`d[k]`, returning `none` where Python raises `KeyError`).
The decoder only produces duplicate-free field lists, so first match
suffices. -/
def dictLookup (k : String) : List (String × JsonValue) → Option JsonValue
  | [] => none
  | (k1, v1) :: rest => if k1 = k then some v1 else dictLookup k rest

/-! ## The JSON decoder

A fuel-indexed recursive-descent parser over the character list, following
the grammar of Python's default (C-accelerated) `json.loads`: optional
whitespace (space/tab/newline/carriage return) between tokens, objects with
string keys, arrays, strings with the standard escapes (including surrogate
`\u` escapes, see `parseStringBody`), numbers matching
`-?(0|[1-9][0-9]*)(.[0-9]+)?([eE][+-]?[0-9]+)?`, the literals
`true`/`false`/`null`, and the non-standard constants `NaN`, `Infinity` and
`-Infinity` that the default decoder accepts.  Trailing input after the
value is an error (`Extra data`), as in `json.loads`. -/

/-- Whitespace skipping of the JSON decoder. -/
def skipWs : List Char → List Char
  | [] => []
  | c :: cs =>
    if c = ' ' ∨ c = '\t' ∨ c = '\n' ∨ c = '\r' then skipWs cs else c :: cs

/-- Longest digit run at the head of the input. -/
def takeDigits : List Char → List Char × List Char
  | [] => ([], [])
  | c :: cs =>
    if c.isDigit then
      let p := takeDigits cs
      (c :: p.1, p.2)
    else ([], c :: cs)

/-- Value of a digit run. -/
def digitsVal (ds : List Char) : Nat :=
  List.foldl (fun a c => a * 10 + (c.toNat - 48)) 0 ds

/-- Hexadecimal digit test. -/
def isHexDigitChar (c : Char) : Bool :=
  c.isDigit || ('a' ≤ c && c ≤ 'f') || ('A' ≤ c && c ≤ 'F')

/-- Value of one hexadecimal digit. -/
def hexVal (c : Char) : Nat :=
  if c.isDigit then c.toNat - 48
  else if 'a' ≤ c ∧ c ≤ 'f' then c.toNat - 87
  else c.toNat - 55

/-- Stand-in for an unpaired surrogate code unit.  CPython's decoder keeps a
lone surrogate `\u` escape as an unpaired surrogate code unit in the
resulting `str`; Lean's `Char` cannot represent a surrogate code point, so
the model substitutes U+FFFD for it.  Parse success and failure agree with
`json.loads` in every case; only the represented character differs on
strings containing unpaired surrogates. -/
def jsonSurrogateSub : Char := '\uFFFD'

/-- Body of a JSON string after the opening quote, with the strict decoder's
escape set; unescaped control characters are rejected.  `\u` escapes follow
the default C scanner: exactly four hex digits; a high surrogate
(`D800`–`DBFF`) immediately followed by an escaped low surrogate
(`DC00`–`DFFF`) combines into the astral code point
`10000 + (hi - D800) * 400ₓ + (lo - DC00)`; a high surrogate followed by a
`\u` escape with malformed hex digits is an error (the decoder decodes the
lookahead escape before testing its range); any other unpaired surrogate is
kept (see `jsonSurrogateSub`), and a trailing `\u` escape after an
uncombined high surrogate is scanned again as an ordinary escape.

The first argument is fuel bounding the number of scanning steps; callers
pass one more than the input length, which dominates it since every step
consumes at least one input character. -/
def parseStringBody : Nat → List Char → List Char → Option (String × List Char)
  | 0, _, _ => none
  | _ + 1, _, [] => none
  | _ + 1, acc, '"' :: cs => some (String.mk acc.reverse, cs)
  | n + 1, acc, '\\' :: cs =>
    match cs with
    | '"' :: rest => parseStringBody n ('"' :: acc) rest
    | '\\' :: rest => parseStringBody n ('\\' :: acc) rest
    | '/' :: rest => parseStringBody n ('/' :: acc) rest
    | 'b' :: rest => parseStringBody n ('\x08' :: acc) rest
    | 'f' :: rest => parseStringBody n ('\x0c' :: acc) rest
    | 'n' :: rest => parseStringBody n ('\n' :: acc) rest
    | 'r' :: rest => parseStringBody n ('\r' :: acc) rest
    | 't' :: rest => parseStringBody n ('\t' :: acc) rest
    | 'u' :: h1 :: h2 :: h3 :: h4 :: rest =>
      if isHexDigitChar h1 ∧ isHexDigitChar h2 ∧ isHexDigitChar h3 ∧ isHexDigitChar h4 then
        let m := hexVal h1 * 4096 + hexVal h2 * 256 + hexVal h3 * 16 + hexVal h4
        if 0xD800 ≤ m ∧ m < 0xDC00 then
          match rest with
          | '\\' :: 'u' :: g1 :: g2 :: g3 :: g4 :: rest2 =>
            if isHexDigitChar g1 ∧ isHexDigitChar g2 ∧ isHexDigitChar g3 ∧
                isHexDigitChar g4 then
              let m2 := hexVal g1 * 4096 + hexVal g2 * 256 + hexVal g3 * 16 + hexVal g4
              if 0xDC00 ≤ m2 ∧ m2 ≤ 0xDFFF then
                parseStringBody n
                  (Char.ofNat (0x10000 + (m - 0xD800) * 1024 + (m2 - 0xDC00)) :: acc)
                  rest2
              else
                parseStringBody n (jsonSurrogateSub :: acc)
                  ('\\' :: 'u' :: g1 :: g2 :: g3 :: g4 :: rest2)
            else none
          | _ => parseStringBody n (jsonSurrogateSub :: acc) rest
        else if 0xDC00 ≤ m ∧ m ≤ 0xDFFF then
          parseStringBody n (jsonSurrogateSub :: acc) rest
        else
          parseStringBody n (Char.ofNat m :: acc) rest
      else none
    | _ => none
  | n + 1, acc, c :: cs =>
    if c.toNat < 32 then none else parseStringBody n (c :: acc) cs

/-- Number token, mirroring the decoder's `NUMBER_RE`: the regex takes the
longest match and leaves any malformed tail (e.g. the `.` of `1.`) to be
rejected by the caller, which is exactly how `json.loads` fails on it. -/
def parseNumberTok (cs : List Char) : Option (JsonValue × List Char) :=
  let sgn : Bool × List Char := match cs with
    | '-' :: rest => (true, rest)
    | _ => (false, cs)
  let intPart : Option (Nat × List Char) := match sgn.2 with
    | '0' :: rest => some (0, rest)
    | c :: rest =>
      if c.isDigit then
        let p := takeDigits (c :: rest)
        some (digitsVal p.1, p.2)
      else none
    | [] => none
  match intPart with
  | none => none
  | some (ip, rest1) =>
    let frac : Nat × Nat × List Char := match rest1 with
      | '.' :: c :: rest =>
        if c.isDigit then
          let p := takeDigits (c :: rest)
          (digitsVal p.1, p.1.length, p.2)
        else (0, 0, rest1)
      | _ => (0, 0, rest1)
    let mantNat : Nat := ip * 10 ^ frac.2.1 + frac.1
    let rest2 := frac.2.2
    let expo : Int × List Char := match rest2 with
      | 'e' :: '+' :: c :: rest =>
        if c.isDigit then
          let p := takeDigits (c :: rest)
          ((digitsVal p.1 : Int), p.2)
        else (0, rest2)
      | 'e' :: '-' :: c :: rest =>
        if c.isDigit then
          let p := takeDigits (c :: rest)
          (-(digitsVal p.1 : Int), p.2)
        else (0, rest2)
      | 'e' :: c :: rest =>
        if c.isDigit then
          let p := takeDigits (c :: rest)
          ((digitsVal p.1 : Int), p.2)
        else (0, rest2)
      | 'E' :: '+' :: c :: rest =>
        if c.isDigit then
          let p := takeDigits (c :: rest)
          ((digitsVal p.1 : Int), p.2)
        else (0, rest2)
      | 'E' :: '-' :: c :: rest =>
        if c.isDigit then
          let p := takeDigits (c :: rest)
          (-(digitsVal p.1 : Int), p.2)
        else (0, rest2)
      | 'E' :: c :: rest =>
        if c.isDigit then
          let p := takeDigits (c :: rest)
          ((digitsVal p.1 : Int), p.2)
        else (0, rest2)
      | _ => (0, rest2)
    let mant : Int := if sgn.1 then -(mantNat : Int) else (mantNat : Int)
    some (JsonValue.num mant (expo.1 - (frac.2.1 : Int)), expo.2)

mutual

/-- One JSON value at the head of the input (leading whitespace allowed). -/
def parseValue : Nat → List Char → Option (JsonValue × List Char)
  | 0, _ => none
  | n + 1, cs =>
    match skipWs cs with
    | '\x7b' :: rest => parseMembers n true [] rest
    | '[' :: rest => parseElements n true [] rest
    | '"' :: rest =>
      match parseStringBody (rest.length + 1) [] rest with
      | none => none
      | some (s, rest1) => some (JsonValue.str s, rest1)
    | 't' :: 'r' :: 'u' :: 'e' :: rest => some (JsonValue.bool true, rest)
    | 'f' :: 'a' :: 'l' :: 's' :: 'e' :: rest => some (JsonValue.bool false, rest)
    | 'n' :: 'u' :: 'l' :: 'l' :: rest => some (JsonValue.null, rest)
    | 'N' :: 'a' :: 'N' :: rest => some (JsonValue.nan, rest)
    | 'I' :: 'n' :: 'f' :: 'i' :: 'n' :: 'i' :: 't' :: 'y' :: rest =>
      some (JsonValue.inf false, rest)
    | '-' :: 'I' :: 'n' :: 'f' :: 'i' :: 'n' :: 'i' :: 't' :: 'y' :: rest =>
      some (JsonValue.inf true, rest)
    | other => parseNumberTok other

/-- Object members after `\x7b`; `first` is true only directly after the
opening brace, where an immediate closing brace (empty object) is legal. -/
def parseMembers (n : Nat) (first : Bool) (acc : List (String × JsonValue)) :
    List Char → Option (JsonValue × List Char) :=
  fun cs =>
  match n with
  | 0 => none
  | n + 1 =>
    match skipWs cs with
    | '\x7d' :: rest => if first then some (JsonValue.obj acc, rest) else none
    | '"' :: rest =>
      match parseStringBody (rest.length + 1) [] rest with
      | none => none
      | some (k, rest1) =>
        match skipWs rest1 with
        | ':' :: rest2 =>
          match parseValue n rest2 with
          | none => none
          | some (v, rest3) =>
            match skipWs rest3 with
            | ',' :: rest4 => parseMembers n false (dictInsert k v acc) rest4
            | '\x7d' :: rest4 => some (JsonValue.obj (dictInsert k v acc), rest4)
            | _ => none
        | _ => none
    | _ => none

/-- Array elements after `[`; `first` as in `parseMembers`. -/
def parseElements (n : Nat) (first : Bool) (acc : List JsonValue) :
    List Char → Option (JsonValue × List Char) :=
  fun cs =>
  match n with
  | 0 => none
  | n + 1 =>
    match skipWs cs with
    | ']' :: rest => if first then some (JsonValue.arr acc.reverse, rest) else none
    | cs1 =>
      match parseValue n cs1 with
      | none => none
      | some (v, rest) =>
        match skipWs rest with
        | ',' :: rest1 => parseElements n false (v :: acc) rest1
        | ']' :: rest1 => some (JsonValue.arr (v :: acc).reverse, rest1)
        | _ => none

end

/-- `json.loads`: one JSON document spanning the whole input (trailing
whitespace allowed, trailing content is `Extra data`).  The fuel
`2 * length + 8` dominates the recursion depth: every recursive call in the
`parseValue`/`parseMembers`/`parseElements` loop consumes at least one input
character per two fuel decrements. -/
def jsonLoads (s : String) : Option JsonValue :=
  match parseValue (2 * s.data.length + 8) s.data with
  | none => none
  | some (v, rest) => if skipWs rest = [] then some v else none

/-! ## Error taxonomy

`GlobeExplorerError` mirrors the exception classes of the library.
`LineException` is what can escape `JSONResponseProcessor.process_line`: the
`ResponseProcessingError` it raises itself, or the Python `TypeError` that
its `except json.JSONDecodeError` / `except KeyError` clauses do not cover
(subscripting a non-dict with a string key, concatenating a non-string onto
`streaming_response`). -/

inductive GlobeExplorerError where
  | modelNotFoundError (msg : String) : GlobeExplorerError
  | apiConnectionError (msg : String) : GlobeExplorerError
  | responseProcessingError (msg : String) : GlobeExplorerError
deriving DecidableEq

inductive LineException where
  | responseProcessingError (msg : String) : LineException
  | typeError (msg : String) : LineException
deriving DecidableEq

/-- `str(e)` of an escaped exception, as interpolated by the orchestrator. -/
def LineException.message : LineException → String
  | .responseProcessingError msg => msg
  | .typeError msg => msg

/-! ## ModelType -/

/-- The closed model enumeration (`class ModelType(Enum)`). -/
inductive ModelType where
  | DEFAULT : ModelType
  | TURBO : ModelType
deriving DecidableEq

/-- The `value` of each enum member. -/
def ModelType.value : ModelType → String
  | .DEFAULT => "default"
  | .TURBO => "turbo"

/-- Member-name lookup `cls[name]` on the enum (`none` where Python raises
`KeyError`). -/
def ModelType.memberNamed (name : String) : Option ModelType :=
  if name = "DEFAULT" then some ModelType.DEFAULT
  else if name = "TURBO" then some ModelType.TURBO
  else none

/-- Python's `str.upper()`, on the ASCII range the model names live in. -/
def pyUpper (s : String) : String :=
  String.mk (s.data.map Char.toUpper)

/-- `ModelType.from_string`: `cls[model_name.upper()]`, converting the
`KeyError` of a failed member lookup into `ModelNotFoundError`. -/
def ModelType.fromString (model_name : String) : Except GlobeExplorerError ModelType :=
  match ModelType.memberNamed (pyUpper model_name) with
  | some m => Except.ok m
  | none =>
    Except.error (GlobeExplorerError.modelNotFoundError
      ("Invalid model " ++ model_name ++ ". Available models: DEFAULT, TURBO"))

/-! ## SearchQuery and request parameters -/

/-- The `SearchQuery` dataclass. -/
structure SearchQuery where
  query : String
  search_id : String
  index : Int
  type : String
  clicked_category : Option String
  staged_image : Option String
  location : Option String
deriving DecidableEq

/-- Constructing `SearchQuery(query=q)` with every defaulted field.

The source declares `search_id: str = str(uuid.uuid1())`: the default-value
expression runs ONCE, when the class body is executed at import time, not at
each instantiation.  `classDefaultSearchId` is that single value, threaded in
as a parameter of the model; every construction that does not pass
`search_id` explicitly receives this same string. -/
def SearchQuery.mkDefault (classDefaultSearchId : String) (q : String) : SearchQuery :=
  { query := q
    search_id := classDefaultSearchId
    index := 0
    type := "initial_searchbox"
    clicked_category := none
    staged_image := none
    location := none }

/-- `SearchQuery.to_dict`. -/
def SearchQuery.to_dict (sq : SearchQuery) : List (String × JsonValue) :=
  [("searchbox_query", JsonValue.str sq.query),
   ("search_id", JsonValue.str sq.search_id),
   ("index", JsonValue.num sq.index 0),
   ("type", JsonValue.str sq.type),
   ("clicked_category", match sq.clicked_category with
     | some s => JsonValue.str s
     | none => JsonValue.null),
   ("staged_image", match sq.staged_image with
     | some s => JsonValue.str s
     | none => JsonValue.null),
   ("location", match sq.location with
     | some s => JsonValue.str s
     | none => JsonValue.null)]

/-- The `SearchQuery(query=query)` built inside
`GlobeExplorerClient._build_params` (line 195): no explicit `search_id`, so
it carries the class-level default. -/
def GlobeExplorerClient.buildParamsQuery (classDefaultSearchId : String)
    (query : String) : SearchQuery :=
  SearchQuery.mkDefault classDefaultSearchId query

/-! ## The line processor (`JSONResponseProcessor.process_line`) -/

/-- The transport tag of the stream framing. -/
def sseTag : List Char := ['d', 'a', 't', 'a', ':', ' ']

/-- The first five characters of the tag (every straddling occurrence of the
tag inside a longer string ends within these). -/
def sseTag5 : List Char := ['d', 'a', 't', 'a', ':']

/-- Whether `p` is an initial segment of `l`. -/
def startsWithSeq : List Char → List Char → Bool
  | [], _ => true
  | _ :: _, [] => false
  | p :: ps, c :: cs => p == c && startsWithSeq ps cs

/-- Whether `p` occurs contiguously anywhere in `l`. -/
def containsSeq (p : List Char) : List Char → Bool
  | [] => startsWithSeq p []
  | c :: cs => startsWithSeq p (c :: cs) || containsSeq p cs

/-- Scanner of Python's `str.replace(pat, "")`: left to right, each
(non-overlapping, leftmost) occurrence of the pattern is dropped and the
scan resumes after it.  `skip` counts pattern characters still to drop. -/
def replaceSseGo : Nat → List Char → List Char
  | _, [] => []
  | Nat.succ n, _ :: cs => replaceSseGo n cs
  | 0, c :: cs =>
    if startsWithSeq sseTag (c :: cs) then replaceSseGo 5 cs
    else c :: replaceSseGo 0 cs

/-- `line.replace("data: ", "")` — removes EVERY occurrence of the tag. -/
def replaceSse (s : String) : String :=
  String.mk (replaceSseGo 0 s.data)

/-- Python `==` between a decoded JSON value and a string literal. -/
def jsonEqStr (v : JsonValue) (s : String) : Bool :=
  match v with
  | JsonValue.str t => t == s
  | _ => false

/-- Whether a decoded value is a JSON object (a Python `dict`). -/
def isObjValue : JsonValue → Bool
  | JsonValue.obj _ => true
  | _ => false

/-- One accumulator (`APIResponse`): note `__post_init__` replaces the
`None` default with a fresh empty list, so each query gets its own
`images`. -/
structure APIResponse where
  streaming_response : String
  images : List JsonValue
  error : Option String

/-- `APIResponse()` as created at the start of `_process_response`. -/
def APIResponse.init : APIResponse :=
  { streaming_response := "", images := [], error := none }

/-- `JSONResponseProcessor.process_line`.  Returns the updated accumulator
and the fragments echoed to the side channel, or the exception escaping the
call.  Paths:
* `json.loads` failure → `ResponseProcessingError` (caught `JSONDecodeError`);
* missing `type` / missing `data` on the two recognized types →
  `ResponseProcessingError` (caught `KeyError`);
* subscripting a non-dict value → uncaught `TypeError`;
* `streaming_response += content` with a non-string `data` → uncaught
  `TypeError` (the echo `print` of that content, which in Python happens just
  before the failing `+=`, is not recorded on this error path);
* a `type` that is neither `top_answer_chunk` nor `image` → no effect. -/
def JSONResponseProcessor.process_line (line : String) (response : APIResponse)
    (prints : Bool) : Except LineException (APIResponse × List String) :=
  match jsonLoads (replaceSse line) with
  | none =>
    Except.error (LineException.responseProcessingError
      "Failed to decode JSON response")
  | some jv =>
    match jv with
    | JsonValue.obj fields =>
      match dictLookup "type" fields with
      | none =>
        Except.error (LineException.responseProcessingError
          "Missing required key in response: type")
      | some t =>
        if jsonEqStr t "top_answer_chunk" then
          match dictLookup "data" fields with
          | none =>
            Except.error (LineException.responseProcessingError
              "Missing required key in response: data")
          | some d =>
            match d with
            | JsonValue.str content =>
              Except.ok
                ({ response with
                    streaming_response := response.streaming_response ++ content },
                  if prints then [content] else [])
            | _ =>
              Except.error (LineException.typeError
                "can only concatenate str to str")
        else if jsonEqStr t "image" then
          match dictLookup "data" fields with
          | none =>
            Except.error (LineException.responseProcessingError
              "Missing required key in response: data")
          | some d =>
            Except.ok ({ response with images := response.images ++ [d] }, [])
        else Except.ok (response, [])
    | _ =>
      Except.error (LineException.typeError
        "value is not subscriptable with a string key")

/-! ## The orchestrator -/

/-- The line loop of `GlobeExplorerClient._process_response`: a falsy
(empty) line is skipped; every exception escaping `process_line` is wrapped
into `ResponseProcessingError`.  The second component is the cumulative echo
side channel. -/
def GlobeExplorerClient.processLines (prints : Bool) :
    List String → APIResponse → List String →
    Except GlobeExplorerError APIResponse × List String
  | [], acc, echo => (Except.ok acc, echo)
  | l :: ls, acc, echo =>
    if l = "" then GlobeExplorerClient.processLines prints ls acc echo
    else
      match JSONResponseProcessor.process_line l acc prints with
      | Except.ok (acc1, out) =>
        GlobeExplorerClient.processLines prints ls acc1 (echo ++ out)
      | Except.error e =>
        (Except.error (GlobeExplorerError.responseProcessingError
          ("Failed to process response: " ++ e.message)), echo)

/-- `GlobeExplorerClient._process_response` over the decoded line sequence of
the stream: a fresh `APIResponse()` folded through the line loop. -/
def GlobeExplorerClient.processResponse (lines : List String) (prints : Bool) :
    Except GlobeExplorerError APIResponse × List String :=
  GlobeExplorerClient.processLines prints lines APIResponse.init []

/-- The `model` argument of `query`: a string or a `ModelType` member. -/
inductive ModelArg where
  | ofString (s : String) : ModelArg
  | ofType (m : ModelType) : ModelArg

/-- The string branch of `query` resolves through `ModelType.from_string`. -/
def resolveModel : ModelArg → Except GlobeExplorerError ModelType
  | ModelArg.ofString s => ModelType.fromString s
  | ModelArg.ofType m => Except.ok m

/-- The observable outcome of the `requests.get` call: a transport-level
`RequestException`, or a response with a final status code and the decoded
line sequence produced by `iter_lines` (blank lines included). -/
inductive HttpOutcome where
  | transportError (detail : String) : HttpOutcome
  | response (status : Nat) (lines : List String) : HttpOutcome

/-- `Response.raise_for_status()` raises `HTTPError` (a `RequestException`)
exactly for client-error (4xx) and server-error (5xx) final status codes;
1xx/2xx/3xx pass through. -/
def raiseForStatus (status : Nat) : Bool :=
  decide (400 ≤ status) && decide (status < 600)

/-- `GlobeExplorerClient.query`, with the network abstracted as the
`HttpOutcome`: resolve the model, then either wrap the caught
`RequestException` (transport failure or `raise_for_status`) into
`APIConnectionError`, or run `_process_response` on the stream.  The second
component is the echo side channel (empty on every error path). -/
def GlobeExplorerClient.query (model : ModelArg) (outcome : HttpOutcome)
    (prints : Bool) : Except GlobeExplorerError APIResponse × List String :=
  match resolveModel model with
  | Except.error e => (Except.error e, [])
  | Except.ok _ =>
    match outcome with
    | HttpOutcome.transportError detail =>
      (Except.error (GlobeExplorerError.apiConnectionError
        ("Failed to connect to API: " ++ detail)), [])
    | HttpOutcome.response status lines =>
      if raiseForStatus status then
        (Except.error (GlobeExplorerError.apiConnectionError
          "Failed to connect to API: HTTP error status"), [])
      else GlobeExplorerClient.processResponse lines prints

/-! ## Claims -/

/-- Claim C1.  The claim states that every `query` invocation constructs its
`SearchQuery` with a freshly generated `search_id`, distinct between any two
invocations.  The code violates it: the dataclass default
`search_id: str = str(uuid.uuid1())` is evaluated once at class-definition
time, so every `SearchQuery` built without an explicit `search_id` — as
`_build_params` builds them — carries the one identifier fixed when the
class body ran, shared across all invocations. -/
theorem C1_search_id_shared_across_queries (u0 q1 q2 : String) :
    (GlobeExplorerClient.buildParamsQuery u0 q1).search_id =
      (GlobeExplorerClient.buildParamsQuery u0 q2).search_id ∧
    (GlobeExplorerClient.buildParamsQuery u0 q1).search_id = u0 :=
  ⟨rfl, rfl⟩

/-- Claim C4: model-name resolution is case-insensitive and total over
`{DEFAULT, TURBO}`: a string whose uppercase form names a member resolves to
that member (so names differing only in case resolve alike), and every other
string yields `ModelNotFoundError`, never a silent default. -/
theorem C4_from_string_case_insensitive_total (s : String) :
    (pyUpper s = "DEFAULT" → ModelType.fromString s = Except.ok ModelType.DEFAULT) ∧
    (pyUpper s = "TURBO" → ModelType.fromString s = Except.ok ModelType.TURBO) ∧
    (pyUpper s ≠ "DEFAULT" → pyUpper s ≠ "TURBO" →
      ∃ msg, ModelType.fromString s =
        Except.error (GlobeExplorerError.modelNotFoundError msg)) ∧
    (∀ t m, pyUpper t = pyUpper s → ModelType.fromString s = Except.ok m →
      ModelType.fromString t = Except.ok m) := by
  refine ⟨?_, ?_, ?_, ?_⟩
  · intro h
    unfold ModelType.fromString
    rw [h]
    rfl
  · intro h
    unfold ModelType.fromString
    rw [h]
    rfl
  · intro h1 h2
    refine ⟨"Invalid model " ++ s ++ ". Available models: DEFAULT, TURBO", ?_⟩
    unfold ModelType.fromString ModelType.memberNamed
    rw [if_neg h1, if_neg h2]
  · intro t m ht hs
    unfold ModelType.fromString at hs ⊢
    rw [ht]
    cases hmem : ModelType.memberNamed (pyUpper s) with
    | none => rw [hmem] at hs; simp at hs
    | some m1 => rw [hmem] at hs; exact hs

/-- Witness for C4 at concrete model names. -/
theorem C4_witness :
    ModelType.fromString "Default" = Except.ok ModelType.DEFAULT ∧
    ModelType.fromString "tUrBo" = Except.ok ModelType.TURBO ∧
    ∃ msg, ModelType.fromString "gpt4" =
      Except.error (GlobeExplorerError.modelNotFoundError msg) :=
  ⟨(C4_from_string_case_insensitive_total "Default").1 (by decide),
   (C4_from_string_case_insensitive_total "tUrBo").2.1 (by decide),
   (C4_from_string_case_insensitive_total "gpt4").2.2.1 (by decide) (by decide)⟩

/-- Claim C7: a blank line in the raw stream is skipped by the orchestrator's
line loop — the processor is never invoked on it, the accumulator and the
echo channel are untouched, and no error arises: at every position of the
loop, processing a blank line then the rest is literally processing the
rest, and the same holds for the whole `_process_response` run. -/
theorem C7_blank_line_skipped (prints : Bool) (ls : List String)
    (acc : APIResponse) (echo : List String) :
    GlobeExplorerClient.processLines prints ("" :: ls) acc echo =
      GlobeExplorerClient.processLines prints ls acc echo ∧
    GlobeExplorerClient.processResponse ("" :: ls) prints =
      GlobeExplorerClient.processResponse ls prints :=
  ⟨rfl, rfl⟩

/-- Claim C6: a line decoding to a JSON object whose `type` value is neither
`top_answer_chunk` nor `image` is silently ignored — `process_line` returns
without error, the accumulator is returned unchanged in every field, and
nothing is emitted on the echo side channel. -/
theorem C6_unknown_type_ignored (l : String) (acc : APIResponse) (prints : Bool)
    (fields : List (String × JsonValue)) (t : JsonValue)
    (hp : jsonLoads (replaceSse l) = some (JsonValue.obj fields))
    (ht : dictLookup "type" fields = some t)
    (h1 : jsonEqStr t "top_answer_chunk" = false)
    (h2 : jsonEqStr t "image" = false) :
    JSONResponseProcessor.process_line l acc prints = Except.ok (acc, []) := by
  unfold JSONResponseProcessor.process_line
  rw [hp]
  simp only [ht, h1, h2]
  simp

/-- Witness for C6: a `sources`-typed record changes nothing. -/
theorem C6_witness :
    JSONResponseProcessor.process_line "\x7b\"type\":\"sources\"\x7d"
      APIResponse.init true = Except.ok (APIResponse.init, []) :=
  C6_unknown_type_ignored "\x7b\"type\":\"sources\"\x7d" APIResponse.init true
    [("type", JsonValue.str "sources")] (JsonValue.str "sources") rfl rfl rfl rfl

/-- Claim C10: a line of valid JSON whose decoded value is not an object
makes `process_line` raise a `TypeError` — not a `ResponseProcessingError`,
since its `except` clauses cover only `json.JSONDecodeError` and `KeyError`
— yet at the public surface the stream run still fails with
`ResponseProcessingError`, because `_process_response` wraps every exception
escaping line processing. -/
theorem C10_non_object_line (l : String) (acc : APIResponse) (prints : Bool)
    (v : JsonValue) (hp : jsonLoads (replaceSse l) = some v)
    (hv : isObjValue v = false) :
    (∃ m1, JSONResponseProcessor.process_line l acc prints =
      Except.error (LineException.typeError m1)) ∧
    (∃ m2, (GlobeExplorerClient.processResponse [l] prints).1 =
      Except.error (GlobeExplorerError.responseProcessingError m2)) := by
  have hline : ∃ m1, JSONResponseProcessor.process_line l acc prints =
      Except.error (LineException.typeError m1) := by
    unfold JSONResponseProcessor.process_line
    rw [hp]
    cases v with
    | obj fields => simp [isObjValue] at hv
    | null => exact ⟨_, rfl⟩
    | bool b => exact ⟨_, rfl⟩
    | num m e => exact ⟨_, rfl⟩
    | nan => exact ⟨_, rfl⟩
    | inf neg => exact ⟨_, rfl⟩
    | str s => exact ⟨_, rfl⟩
    | arr xs => exact ⟨_, rfl⟩
  refine ⟨hline, ?_⟩
  have hne : ¬ l = "" := by
    intro he
    rw [he] at hp
    have : jsonLoads (replaceSse "") = none := rfl
    rw [this] at hp
    exact Option.noConfusion hp
  have hline0 : ∃ m1, JSONResponseProcessor.process_line l APIResponse.init prints =
      Except.error (LineException.typeError m1) := by
    unfold JSONResponseProcessor.process_line
    rw [hp]
    cases v with
    | obj fields => simp [isObjValue] at hv
    | null => exact ⟨_, rfl⟩
    | bool b => exact ⟨_, rfl⟩
    | num m e => exact ⟨_, rfl⟩
    | nan => exact ⟨_, rfl⟩
    | inf neg => exact ⟨_, rfl⟩
    | str s => exact ⟨_, rfl⟩
    | arr xs => exact ⟨_, rfl⟩
  obtain ⟨m1, hm1⟩ := hline0
  refine ⟨"Failed to process response: " ++ m1, ?_⟩
  unfold GlobeExplorerClient.processResponse GlobeExplorerClient.processLines
  rw [if_neg hne, hm1]
  rfl

/-- Witness for C10 at the bare-number line `7`. -/
theorem C10_witness :
    (∃ m1, JSONResponseProcessor.process_line "7" APIResponse.init true =
      Except.error (LineException.typeError m1)) ∧
    (∃ m2, (GlobeExplorerClient.processResponse ["7"] true).1 =
      Except.error (GlobeExplorerError.responseProcessingError m2)) :=
  C10_non_object_line "7" APIResponse.init true (JsonValue.num 7 0) rfl rfl

/-- Claim C8 counterexample: the claim says ANY non-2xx status raises
`APIConnectionError` before stream processing, but `raise_for_status` only
raises for 4xx/5xx.  A final `304` response (non-2xx) sails through and the
stream is processed normally, returning a result object. -/
theorem C8_counterexample :
    GlobeExplorerClient.query (ModelArg.ofType ModelType.DEFAULT)
      (HttpOutcome.response 304
        ["\x7b\"type\":\"top_answer_chunk\",\"data\":\"hi\"\x7d"]) false =
      (Except.ok { streaming_response := "hi", images := [], error := none }, []) ∧
    ¬ (200 ≤ 304 ∧ 304 < 300) :=
  ⟨rfl, by decide⟩

/-- Claim C8 as amended: if the transport fails, or the final HTTP status is
4xx or 5xx (the statuses `raise_for_status` raises for), `query` fails with
`APIConnectionError` before any stream processing — for every possible
stream content — and no partial result or echo output is produced. -/
theorem C8_connection_error (model : ModelArg) (mt : ModelType)
    (hres : resolveModel model = Except.ok mt) :
    (∀ detail prints, GlobeExplorerClient.query model
        (HttpOutcome.transportError detail) prints =
      (Except.error (GlobeExplorerError.apiConnectionError
        ("Failed to connect to API: " ++ detail)), [])) ∧
    (∀ status lines prints, 400 ≤ status → status < 600 →
      GlobeExplorerClient.query model (HttpOutcome.response status lines) prints =
      (Except.error (GlobeExplorerError.apiConnectionError
        "Failed to connect to API: HTTP error status"), [])) := by
  constructor
  · intro detail prints
    unfold GlobeExplorerClient.query
    rw [hres]
  · intro status lines prints h4 h6
    have hstat : raiseForStatus status = true := by
      unfold raiseForStatus
      simp [h4, h6]
    unfold GlobeExplorerClient.query
    rw [hres]
    simp [hstat]

/-- Witness for C8 at a 404 response and a timeout. -/
theorem C8_witness :
    GlobeExplorerClient.query (ModelArg.ofType ModelType.TURBO)
      (HttpOutcome.response 404 ["irrelevant"]) true =
      (Except.error (GlobeExplorerError.apiConnectionError
        "Failed to connect to API: HTTP error status"), []) ∧
    GlobeExplorerClient.query (ModelArg.ofType ModelType.TURBO)
      (HttpOutcome.transportError "timeout") true =
      (Except.error (GlobeExplorerError.apiConnectionError
        "Failed to connect to API: timeout"), []) :=
  ⟨(C8_connection_error (ModelArg.ofType ModelType.TURBO) ModelType.TURBO rfl).2
      404 ["irrelevant"] true (by decide) (by decide),
   (C8_connection_error (ModelArg.ofType ModelType.TURBO) ModelType.TURBO rfl).1
      "timeout" true⟩

/-! ### The transport-tag scanner (claim C2) -/

/-- `startsWithSeq p l` holds exactly when the first `p.length` characters of
`l` are `p`. -/
theorem startsWithSeq_iff_take (p : List Char) : ∀ l : List Char,
    startsWithSeq p l = true ↔ p.length ≤ l.length ∧ l.take p.length = p := by
  induction p with
  | nil => intro l; simp [startsWithSeq]
  | cons p ps ih =>
    intro l
    cases l with
    | nil => simp [startsWithSeq]
    | cons c cs =>
      simp only [startsWithSeq, Bool.and_eq_true, beq_iff_eq, ih cs,
        List.length_cons, List.take_succ_cons, List.cons.injEq,
        Nat.add_le_add_iff_right]
      constructor
      · rintro ⟨h1, h2, h3⟩; exact ⟨h2, h1.symm, h3⟩
      · rintro ⟨h2, h1, h3⟩; exact ⟨h1.symm, h2, h3⟩

/-- A match of the six-character tag starting at the head of `w ++ sseTag ++ v`
with `w` nonempty is still a match at the head of `w ++ sseTag5`: any
occurrence that straddles into a following tag ends within its first five
characters. -/
theorem startsWithSeq_straddle (w v : List Char) (hw : w ≠ [])
    (h : startsWithSeq sseTag (w ++ (sseTag ++ v)) = true) :
    startsWithSeq sseTag (w ++ sseTag5) = true := by
  rw [startsWithSeq_iff_take] at h ⊢
  obtain ⟨hlen, htake⟩ := h
  have hw1 : 1 ≤ w.length := List.length_pos.mpr hw
  have h6 : sseTag.length = 6 := rfl
  have h5 : sseTag5.length = 5 := rfl
  rw [h6] at htake ⊢
  constructor
  · rw [List.length_append, h5]; omega
  · rw [List.take_append_eq_append_take] at htake ⊢
    have hv : (sseTag ++ v).take (6 - w.length) = sseTag.take (6 - w.length) :=
      List.take_append_of_le_length (by rw [h6]; omega)
    have h5t : sseTag5.take (6 - w.length) = sseTag.take (6 - w.length) := by
      have : sseTag5 = sseTag.take 5 := rfl
      rw [this, List.take_take, Nat.min_eq_left (by omega)]
    rw [h5t]
    rw [hv] at htake
    exact htake

/-- Lines without any occurrence of the tag pass through the scanner
unchanged. -/
theorem replaceSseGo_no_occurrence : ∀ l : List Char,
    containsSeq sseTag l = false → replaceSseGo 0 l = l := by
  intro l
  induction l with
  | nil => intro _; rfl
  | cons c cs ih =>
    intro h
    unfold containsSeq at h
    rw [Bool.or_eq_false_iff] at h
    unfold replaceSseGo
    rw [if_neg (by rw [h.1]; exact Bool.false_ne_true)]
    rw [ih h.2]

/-- The scanner removes an occurrence of the tag wherever it stands, provided
no earlier (possibly straddling) match precedes it, and resumes after it. -/
theorem replaceSseGo_removes_occurrence : ∀ u v : List Char,
    containsSeq sseTag (u ++ sseTag5) = false →
    replaceSseGo 0 (u ++ (sseTag ++ v)) = u ++ replaceSseGo 0 v := by
  intro u
  induction u with
  | nil => intro v _; rfl
  | cons c u1 ih =>
    intro v h
    rw [List.cons_append] at h
    unfold containsSeq at h
    rw [Bool.or_eq_false_iff] at h
    simp only [List.cons_append]
    rw [replaceSseGo]
    rw [if_neg ?_]
    · rw [ih v h.2]
    · intro hc
      have := startsWithSeq_straddle (c :: u1) v (by simp) (by rw [List.cons_append]; exact hc)
      rw [List.cons_append] at this
      rw [h.1] at this
      exact Bool.false_ne_true this

/-- Claim C2 counterexample: the line decoder does not strip only a leading
`"data: "` — `str.replace` removes every occurrence, so a payload containing
the tag is altered.  `leadingTagStrip` (below) is the transformation the
claim describes; at this line the implementation disagrees with it, and the
fragment delivered downstream is `hi` instead of the claimed `data: hi`. -/
def leadingTagStrip (s : String) : String :=
  if startsWithSeq sseTag s.data then String.mk (s.data.drop 6) else s

/-- Claim C2 counterexample (see `leadingTagStrip`). -/
theorem C2_counterexample :
    replaceSse "data: \x7b\"type\":\"top_answer_chunk\",\"data\":\"data: hi\"\x7d" ≠
      leadingTagStrip "data: \x7b\"type\":\"top_answer_chunk\",\"data\":\"data: hi\"\x7d" ∧
    replaceSse "data: \x7b\"type\":\"top_answer_chunk\",\"data\":\"data: hi\"\x7d" =
      "\x7b\"type\":\"top_answer_chunk\",\"data\":\"hi\"\x7d" ∧
    JSONResponseProcessor.process_line
      "data: \x7b\"type\":\"top_answer_chunk\",\"data\":\"data: hi\"\x7d"
      APIResponse.init false =
      Except.ok ({ streaming_response := "hi", images := [], error := none }, []) :=
  ⟨by decide, rfl, rfl⟩

/-- Claim C2 as amended: before JSON decoding, the decoder removes EVERY
(leftmost, non-overlapping) occurrence of `"data: "` from the line, not only
a leading prefix — so occurrences inside the JSON payload are removed too,
not preserved.  Precisely: a line with no occurrence of the tag is passed
through unchanged, and an occurrence standing after a tag-free prefix `u`
(no match even straddling into the occurrence, i.e. none in `u ++ "data:"`)
is deleted, with scanning resuming after it; a leading tag is the `u = []`
case. -/
theorem C2_strips_every_occurrence :
    (∀ l : List Char, containsSeq sseTag l = false → replaceSseGo 0 l = l) ∧
    (∀ u v : List Char, containsSeq sseTag (u ++ sseTag5) = false →
      replaceSseGo 0 (u ++ (sseTag ++ v)) = u ++ replaceSseGo 0 v) ∧
    (∀ v : List Char, replaceSseGo 0 (sseTag ++ v) = replaceSseGo 0 v) ∧
    (∀ s : String, replaceSse s = String.mk (replaceSseGo 0 s.data)) :=
  ⟨replaceSseGo_no_occurrence, replaceSseGo_removes_occurrence,
   fun _ => rfl, fun _ => rfl⟩

/-- Witness for C2 as amended: a tag-free line is unchanged; an interior
occurrence after the tag-free prefix `x` is removed. -/
theorem C2_amended_witness :
    replaceSseGo 0 ['a', 'b'] = ['a', 'b'] ∧
    replaceSseGo 0 (['x'] ++ (sseTag ++ ['y'])) = ['x'] ++ replaceSseGo 0 ['y'] :=
  ⟨C2_strips_every_occurrence.1 ['a', 'b'] (by decide),
   C2_strips_every_occurrence.2.1 ['x'] ['y'] (by decide)⟩

/-! ### Malformed lines (claim C5) -/

/-- The failure conditions named by claim C5 for a single line: not valid
JSON, a JSON object without the `type` key, or a `top_answer_chunk` object
without the `data` key. -/
def isBadLine (l : String) : Bool :=
  match jsonLoads (replaceSse l) with
  | none => true
  | some (JsonValue.obj fields) =>
    match dictLookup "type" fields with
    | none => true
    | some t => jsonEqStr t "top_answer_chunk" && (dictLookup "data" fields).isNone
  | some _ => false

/-- Every bad line makes `process_line` raise. -/
theorem process_line_error_of_isBadLine (l : String) (acc : APIResponse)
    (prints : Bool) (h : isBadLine l = true) :
    ∃ e, JSONResponseProcessor.process_line l acc prints = Except.error e := by
  unfold isBadLine at h
  unfold JSONResponseProcessor.process_line
  cases hp : jsonLoads (replaceSse l) with
  | none => exact ⟨_, rfl⟩
  | some v =>
    rw [hp] at h
    cases v with
    | obj fields =>
      cases ht : dictLookup "type" fields with
      | none =>
        simp only [ht]
        exact ⟨_, rfl⟩
      | some t =>
        simp only [ht] at h
        rw [Bool.and_eq_true] at h
        have hd : dictLookup "data" fields = none := Option.isNone_iff_eq_none.mp h.2
        simp only [ht, h.1, hd, if_true]
        exact ⟨_, rfl⟩
    | null => simp at h
    | bool b => simp at h
    | num m e => simp at h
    | nan => simp at h
    | inf neg => simp at h
    | str s => simp at h
    | arr xs => simp at h

/-- If some nonblank line of the stream is bad, the line loop ends in a
`ResponseProcessingError`, whatever accumulator and echo state it starts
from, and no accumulator is returned. -/
theorem processLines_error_of_bad : ∀ (ls : List String) (acc : APIResponse)
    (echo : List String) (prints : Bool),
    (∃ l, l ∈ ls ∧ l ≠ "" ∧ isBadLine l = true) →
    ∃ msg, (GlobeExplorerClient.processLines prints ls acc echo).1 =
      Except.error (GlobeExplorerError.responseProcessingError msg) := by
  intro ls
  induction ls with
  | nil =>
    rintro acc echo prints ⟨l, hmem, -, -⟩
    exact absurd hmem (List.not_mem_nil l)
  | cons l0 ls ih =>
    rintro acc echo prints ⟨l, hmem, hne, hbad⟩
    unfold GlobeExplorerClient.processLines
    by_cases hl0 : l0 = ""
    · rw [if_pos hl0]
      refine ih acc echo prints ⟨l, ?_, hne, hbad⟩
      cases List.mem_cons.mp hmem with
      | inl heq => exact absurd (heq.trans hl0) hne
      | inr hmem1 => exact hmem1
    · rw [if_neg hl0]
      cases hpl : JSONResponseProcessor.process_line l0 acc prints with
      | error e => exact ⟨_, rfl⟩
      | ok p =>
        obtain ⟨acc1, out⟩ := p
        cases List.mem_cons.mp hmem with
        | inl heq =>
          obtain ⟨e, he⟩ :=
            process_line_error_of_isBadLine l0 acc prints (heq ▸ hbad)
          rw [he] at hpl
          exact absurd hpl (by simp)
        | inr hmem1 => exact ih acc1 (echo ++ out) prints ⟨l, hmem1, hne, hbad⟩

/-- Claim C5: if any line of the stream is not valid JSON, or is a JSON
object lacking `type`, or is a `top_answer_chunk` object lacking `data`,
then the query fails with `ResponseProcessingError` and no result object —
in particular no text or images accumulated before the failing line — is
returned to the caller. -/
theorem C5_malformed_line_fails (model : ModelArg) (mt : ModelType)
    (status : Nat) (lines : List String) (prints : Bool)
    (hres : resolveModel model = Except.ok mt)
    (hstat : raiseForStatus status = false)
    (h : ∃ l, l ∈ lines ∧ l ≠ "" ∧ isBadLine l = true) :
    ∃ msg, (GlobeExplorerClient.query model (HttpOutcome.response status lines)
      prints).1 = Except.error (GlobeExplorerError.responseProcessingError msg) := by
  unfold GlobeExplorerClient.query
  rw [hres]
  simp only [hstat, Bool.false_eq_true, if_false]
  exact processLines_error_of_bad lines APIResponse.init [] prints h

/-- Witness for C5: a stream whose second line is not JSON. -/
theorem C5_witness :
    ∃ msg, (GlobeExplorerClient.query (ModelArg.ofType ModelType.DEFAULT)
      (HttpOutcome.response 200
        ["\x7b\"type\":\"top_answer_chunk\",\"data\":\"ok\"\x7d", "notjson"])
      true).1 = Except.error (GlobeExplorerError.responseProcessingError msg) :=
  C5_malformed_line_fails (ModelArg.ofType ModelType.DEFAULT) ModelType.DEFAULT
    200 ["\x7b\"type\":\"top_answer_chunk\",\"data\":\"ok\"\x7d", "notjson"] true
    rfl rfl ⟨"notjson", by simp, by decide, by decide⟩

/-! ### Echo purity (claim C9) -/

/-- `process_line` with and without echo: the exception or the updated
accumulator is identical; only the side-channel output differs, and with
`prints = false` it is empty. -/
theorem process_line_prints_independent (l : String) (acc : APIResponse) :
    (∃ e, JSONResponseProcessor.process_line l acc true = Except.error e ∧
      JSONResponseProcessor.process_line l acc false = Except.error e) ∨
    (∃ a o, JSONResponseProcessor.process_line l acc true = Except.ok (a, o) ∧
      JSONResponseProcessor.process_line l acc false = Except.ok (a, [])) := by
  unfold JSONResponseProcessor.process_line
  split
  · exact Or.inl ⟨_, rfl, rfl⟩
  · split
    · split
      · exact Or.inl ⟨_, rfl, rfl⟩
      · split
        · split
          · exact Or.inl ⟨_, rfl, rfl⟩
          · split
            · exact Or.inr ⟨_, _, rfl, rfl⟩
            · exact Or.inl ⟨_, rfl, rfl⟩
        · split
          · split
            · exact Or.inl ⟨_, rfl, rfl⟩
            · exact Or.inr ⟨_, _, rfl, rfl⟩
          · exact Or.inr ⟨_, _, rfl, rfl⟩
    · exact Or.inl ⟨_, rfl, rfl⟩

/-- The whole line loop is insensitive to the echo flag in its returned
value, and produces no echo output when the flag is off. -/
theorem processLines_prints_independent : ∀ (ls : List String)
    (acc : APIResponse) (echoT echoF : List String),
    (GlobeExplorerClient.processLines true ls acc echoT).1 =
      (GlobeExplorerClient.processLines false ls acc echoF).1 ∧
    (GlobeExplorerClient.processLines false ls acc echoF).2 = echoF := by
  intro ls
  induction ls with
  | nil => intro acc eT eF; exact ⟨rfl, rfl⟩
  | cons l ls ih =>
    intro acc eT eF
    unfold GlobeExplorerClient.processLines
    by_cases hl : l = ""
    · rw [if_pos hl, if_pos hl]
      exact ih acc eT eF
    · rw [if_neg hl, if_neg hl]
      rcases process_line_prints_independent l acc with ⟨e, h1, h2⟩ | ⟨a, o, h1, h2⟩
      · simp [h1, h2]
      · simp only [h1, h2]
        rw [List.append_nil]
        exact ih a (eT ++ o) eF

/-- Claim C9: the echo flag does not influence the returned result — for
every line sequence, processing with `prints = true` and `prints = false`
yields the same `APIResponse` (or the same error), both at the
`_process_response` level and through the public `query`; the flag only
feeds the side output channel, which stays empty when the flag is off. -/
theorem C9_echo_flag_pure :
    (∀ lines, (GlobeExplorerClient.processResponse lines true).1 =
        (GlobeExplorerClient.processResponse lines false).1 ∧
      (GlobeExplorerClient.processResponse lines false).2 = []) ∧
    (∀ model outcome, (GlobeExplorerClient.query model outcome true).1 =
        (GlobeExplorerClient.query model outcome false).1) := by
  constructor
  · intro lines
    exact processLines_prints_independent lines APIResponse.init [] []
  · intro model outcome
    unfold GlobeExplorerClient.query
    cases hres : resolveModel model with
    | error e => rfl
    | ok mt =>
      cases outcome with
      | transportError d => rfl
      | response status lines =>
        cases hrs : raiseForStatus status with
        | true => simp [hrs]
        | false =>
          simp only [hrs, Bool.false_eq_true, if_false]
          exact (processLines_prints_independent lines APIResponse.init [] []).1

/-! ### Stream fold (claim C3) -/

/-- A well-formed event line of the stream, as claim C3 quantifies over
them: either a `top_answer_chunk` record with a string fragment, or an
`image` record with its payload. -/
inductive EventKind where
  | chunk (f : String) : EventKind
  | image (d : JsonValue) : EventKind

/-- A line that decodes (after tag removal) to a `top_answer_chunk` object
whose `data` is the string fragment `f`. -/
def ChunkLine (l f : String) : Prop :=
  l ≠ "" ∧ ∃ fields, jsonLoads (replaceSse l) = some (JsonValue.obj fields) ∧
    dictLookup "type" fields = some (JsonValue.str "top_answer_chunk") ∧
    dictLookup "data" fields = some (JsonValue.str f)

/-- A line that decodes (after tag removal) to an `image` object whose
`data` is the payload `d`. -/
def ImageLine (l : String) (d : JsonValue) : Prop :=
  l ≠ "" ∧ ∃ fields, jsonLoads (replaceSse l) = some (JsonValue.obj fields) ∧
    dictLookup "type" fields = some (JsonValue.str "image") ∧
    dictLookup "data" fields = some d

/-- A line realizes its described event. -/
def WellFormedLine (l : String) : EventKind → Prop
  | EventKind.chunk f => ChunkLine l f
  | EventKind.image d => ImageLine l d

/-- Concatenation, in arrival order, of the chunk fragments of a stream. -/
def chunkText : List EventKind → String
  | [] => ""
  | EventKind.chunk f :: ks => f ++ chunkText ks
  | EventKind.image _ :: ks => chunkText ks

/-- The image payloads of a stream, in arrival order. -/
def imageSeq : List EventKind → List JsonValue
  | [] => []
  | EventKind.chunk _ :: ks => imageSeq ks
  | EventKind.image d :: ks => d :: imageSeq ks

/-- A chunk line appends its fragment to the text buffer and touches
nothing else; the fragment goes to the echo channel iff echo is on. -/
theorem process_line_chunk (l f : String) (acc : APIResponse) (prints : Bool)
    (h : ChunkLine l f) :
    JSONResponseProcessor.process_line l acc prints =
      Except.ok ({ acc with streaming_response := acc.streaming_response ++ f },
        if prints then [f] else []) := by
  obtain ⟨-, fields, hp, ht, hd⟩ := h
  unfold JSONResponseProcessor.process_line
  rw [hp]
  simp only [ht, hd, jsonEqStr]
  simp

/-- An image line appends its payload to the image sequence and touches
nothing else; nothing reaches the echo channel. -/
theorem process_line_image (l : String) (d : JsonValue) (acc : APIResponse)
    (prints : Bool) (h : ImageLine l d) :
    JSONResponseProcessor.process_line l acc prints =
      Except.ok ({ acc with images := acc.images ++ [d] }, []) := by
  obtain ⟨-, fields, hp, ht, hd⟩ := h
  have hne : jsonEqStr (JsonValue.str "image") "top_answer_chunk" = false := by decide
  have him : jsonEqStr (JsonValue.str "image") "image" = true := by decide
  unfold JSONResponseProcessor.process_line
  rw [hp]
  simp only [ht, hd, hne, him]
  simp

/-- Folding a well-formed stream from any starting accumulator appends the
chunk fragments to the text buffer and the image payloads to the image
sequence, in arrival order, leaving the error field untouched. -/
theorem processLines_wellformed (prints : Bool) :
    ∀ (ls : List String) (ks : List EventKind), List.Forall₂ WellFormedLine ls ks →
    ∀ (acc : APIResponse) (echo : List String),
    ∃ echoOut, GlobeExplorerClient.processLines prints ls acc echo =
      (Except.ok { streaming_response := acc.streaming_response ++ chunkText ks,
                   images := acc.images ++ imageSeq ks,
                   error := acc.error }, echoOut) := by
  intro ls ks h
  induction h with
  | nil =>
    intro acc echo
    refine ⟨echo, ?_⟩
    simp [GlobeExplorerClient.processLines, chunkText, imageSeq,
      String.append_empty]
  | @cons l k ls1 ks1 hlk hrest ih =>
    intro acc echo
    cases k with
    | chunk f =>
      have hc : ChunkLine l f := hlk
      unfold GlobeExplorerClient.processLines
      rw [if_neg hc.1]
      rw [process_line_chunk l f acc prints hc]
      obtain ⟨eo, heo⟩ :=
        ih { acc with streaming_response := acc.streaming_response ++ f }
          (echo ++ (if prints then [f] else []))
      refine ⟨eo, ?_⟩
      simp only [heo, chunkText, imageSeq, String.append_assoc]
    | image d =>
      have hc : ImageLine l d := hlk
      unfold GlobeExplorerClient.processLines
      rw [if_neg hc.1]
      rw [process_line_image l d acc prints hc]
      obtain ⟨eo, heo⟩ :=
        ih { acc with images := acc.images ++ [d] } (echo ++ [])
      refine ⟨eo, ?_⟩
      simp only [heo, chunkText, imageSeq, List.append_assoc]
      rfl

/-- Claim C3: for any stream interleaving well-formed `top_answer_chunk`
lines (fragments f1..fN) with well-formed `image` lines, processing all
lines in order into a fresh accumulator yields `streaming_response` equal to
the concatenation of the fragments in arrival order and `images` equal to
the image payloads in arrival order; the channels are disjoint — a chunk
line never changes `images` or `error`, an image line never changes
`streaming_response` or `error` (and emits nothing to the echo channel). -/
theorem C3_interleaved_channels :
    (∀ (ls : List String) (ks : List EventKind) (prints : Bool),
      List.Forall₂ WellFormedLine ls ks →
      ∃ echoOut, GlobeExplorerClient.processResponse ls prints =
        (Except.ok { streaming_response := chunkText ks,
                     images := imageSeq ks,
                     error := none }, echoOut)) ∧
    (∀ (l f : String) (acc : APIResponse) (prints : Bool), ChunkLine l f →
      JSONResponseProcessor.process_line l acc prints =
        Except.ok ({ acc with streaming_response := acc.streaming_response ++ f },
          if prints then [f] else [])) ∧
    (∀ (l : String) (d : JsonValue) (acc : APIResponse) (prints : Bool),
      ImageLine l d →
      JSONResponseProcessor.process_line l acc prints =
        Except.ok ({ acc with images := acc.images ++ [d] }, [])) := by
  refine ⟨?_, process_line_chunk, process_line_image⟩
  intro ls ks prints h
  obtain ⟨eo, heo⟩ := processLines_wellformed prints ls ks h APIResponse.init []
  exact ⟨eo, heo⟩

/-- Witness for C3 on the spec's end-to-end scenario, with the image line
interleaved between the two chunk lines. -/
theorem C3_witness :
    ∃ echoOut, GlobeExplorerClient.processResponse
      ["data: \x7b\"type\":\"top_answer_chunk\",\"data\":\"Hello\"\x7d",
       "\x7b\"type\":\"image\",\"data\":\x7b\"path\":\"p1\"\x7d\x7d",
       "data: \x7b\"type\":\"top_answer_chunk\",\"data\":\" world\"\x7d"] true =
      (Except.ok { streaming_response := "Hello world",
                   images := [JsonValue.obj [("path", JsonValue.str "p1")]],
                   error := none }, echoOut) :=
  C3_interleaved_channels.1
    ["data: \x7b\"type\":\"top_answer_chunk\",\"data\":\"Hello\"\x7d",
     "\x7b\"type\":\"image\",\"data\":\x7b\"path\":\"p1\"\x7d\x7d",
     "data: \x7b\"type\":\"top_answer_chunk\",\"data\":\" world\"\x7d"]
    [EventKind.chunk "Hello",
     EventKind.image (JsonValue.obj [("path", JsonValue.str "p1")]),
     EventKind.chunk " world"] true
    (List.Forall₂.cons
      ⟨by decide, [("type", JsonValue.str "top_answer_chunk"),
        ("data", JsonValue.str "Hello")], rfl, rfl, rfl⟩
      (List.Forall₂.cons
        ⟨by decide, [("type", JsonValue.str "image"),
          ("data", JsonValue.obj [("path", JsonValue.str "p1")])], rfl, rfl, rfl⟩
        (List.Forall₂.cons
          ⟨by decide, [("type", JsonValue.str "top_answer_chunk"),
            ("data", JsonValue.str " world")], rfl, rfl, rfl⟩
          List.Forall₂.nil)))
